import Mathlib

/-!
Shallow embedding of the ECommerce-API repository (src/database.py, src/main.py,
src/models.py) and verification of its specification claims.

Python dictionaries are modelled as insertion-ordered association lists with
unique keys: setting an existing key keeps its position and overwrites the
value, setting a new key appends at the end, exactly as CPython dicts behave.
JSON/Python scalar values are modelled by the inductive type `Value`; floats
are modelled as rationals (arithmetic on them is exact in the model).
File persistence (`Database._save_data`) only mirrors the in-memory state to
disk and never feeds back into any operation modelled here, so it is elided.
-/

namespace ECom

/-- Scalar values stored in records: Python `str`, `int`, `float`, `bool`, `None`. -/
inductive Value where
  | vStr (s : String)
  | vInt (n : Int)
  | vRat (q : ℚ)
  | vBool (b : Bool)
  | vNull
deriving DecidableEq, Repr

/-- Python truthiness of a scalar, as used by `prod.get("is_available", False)`
checks in main.py: empty string, zero and `None` are falsy. -/
def Value.truthy : Value → Bool
  | .vStr s => s ≠ ""
  | .vInt n => n ≠ 0
  | .vRat q => q ≠ 0
  | .vBool b => b
  | .vNull => false

/-- A Python dict: insertion-ordered association list with unique keys. -/
abbrev Dict (α β : Type) := List (α × β)

/-- Dict lookup `d.get(key)`: the value at the first (only) occurrence of `key`. -/
def dget {α β : Type} [DecidableEq α] : Dict α β → α → Option β
  | [], _ => none
  | (k, v) :: rest, key => if k = key then some v else dget rest key

/-- Dict assignment `d[key] = val`: overwrite in place if the key exists
(keeping its position), otherwise append at the end. -/
def dset {α β : Type} [DecidableEq α] : Dict α β → α → β → Dict α β
  | [], key, val => [(key, val)]
  | (k, v) :: rest, key, val =>
      if k = key then (key, val) :: rest else (k, v) :: dset rest key val

/-- Dict removal `d.pop(key, None)`: the dict without the entry for `key`,
paired with the removed value (`none` when the key was absent). -/
def dpop {α β : Type} [DecidableEq α] : Dict α β → α → Dict α β × Option β
  | [], _ => ([], none)
  | (k, v) :: rest, key =>
      if k = key then (rest, some v)
      else
        let r := dpop rest key
        ((k, v) :: r.1, r.2)

/-- The keys of a dict appear pairwise distinct (always true of a real Python
dict; stated as a predicate because the model is a bare list). -/
@[reducible] def keysNodup {α β : Type} (d : Dict α β) : Prop :=
  (d.map Prod.fst).Nodup

/-- A record of the file-backed store: a flat field dict (`Dict[str, Any]`). -/
abbrev Record := Dict String Value

/-- A table of the file-backed store: `List[Dict[str, Any]]`, insertion ordered. -/
abbrev Table := List Record

/-- The whole store of the `Database` class: `Dict[str, List[Dict[str, Any]]]`. -/
abbrev Tables := Dict String Table

/-- database.py `Database.create_table`: add an empty table when the name is
new, leave the store untouched when the table already exists. -/
def Database.create_table (tables : Tables) (table_name : String) : Tables :=
  if (dget tables table_name).isSome then tables else dset tables table_name []

/-- database.py `Database.insert`: create the table if missing, set
`record['id']` to the freshly generated identifier and `record['created_at']`
to the current time, append the record, and return the id. The generated
uuid4 string and the timestamp are nondeterministic inputs of the real code,
so they are passed as the parameters `new_id` and `now`. -/
def Database.insert (tables : Tables) (table_name : String) (record : Record)
    (new_id now : String) : Tables × String :=
  let tables1 := if (dget tables table_name).isSome then tables
                 else Database.create_table tables table_name
  let record1 := dset (dset record "id" (.vStr new_id)) "created_at" (.vStr now)
  let tbl := (dget tables1 table_name).getD []
  (dset tables1 table_name (tbl ++ [record1]), new_id)

/-- Inner loop of database.py `Database.select`: a record matches when every
`(key, value)` pair of the `where` dict is present in the record with an equal
value (`key not in record or record[key] != value` breaks the match). -/
def recordMatches (r : Record) : Record → Bool
  | [] => true
  | (key, value) :: rest =>
      match dget r key with
      | none => false
      | some v => if v = value then recordMatches r rest else false

/-- Outer loop of database.py `Database.select`: walk the table in order and
keep the records that match the `where` dict. -/
def selectFilter (whereq : Record) : Table → Table
  | [] => []
  | r :: rs => if recordMatches r whereq then r :: selectFilter whereq rs
               else selectFilter whereq rs

/-- database.py `Database.select`: empty result for a missing table, the whole
table for `where=None`, otherwise the filtered table. -/
def Database.select (tables : Tables) (table_name : String)
    (whereq : Option Record) : Table :=
  match dget tables table_name with
  | none => []
  | some records =>
      match whereq with
      | none => records
      | some w => selectFilter w records

/-- Merge loop shared by database.py `Database.update` (`if key != 'id'`) and
`InMemoryDatabase.update_user` / `update_product` (`if k != "user_id"`,
`if k != "product_id"`): fold the updates dict into the record, skipping the
entry whose key equals the protected identifier key. -/
def applyUpdatesExcept (idKey : String) (updates : Record) (r : Record) : Record :=
  updates.foldl (fun acc kv => if kv.1 = idKey then acc else dset acc kv.1 kv.2) r

/-- Record transformation of database.py `Database.update` on the matched
record: merge the updates (ignoring the `'id'` key), then stamp
`record['updated_at']` with the current time. -/
def mergeRecord (updates : Record) (r : Record) (now : String) : Record :=
  dset (applyUpdatesExcept "id" updates r) "updated_at" (.vStr now)

/-- Search loop of database.py `Database.update`: replace the first record
whose `record.get('id')` equals the requested id by its merged version;
`none` when no record matches. -/
def updateFirst (updates : Record) (record_id now : String) : Table → Option Table
  | [] => none
  | r :: rs =>
      if dget r "id" = some (.vStr record_id) then
        some (mergeRecord updates r now :: rs)
      else
        match updateFirst updates record_id now rs with
        | some rs' => some (r :: rs')
        | none => none

/-- database.py `Database.update`: `False` when the table is missing or no
record carries the id, otherwise the store with the first matching record
merged in place and `True`. -/
def Database.update (tables : Tables) (table_name record_id : String)
    (updates : Record) (now : String) : Tables × Bool :=
  match dget tables table_name with
  | none => (tables, false)
  | some records =>
      match updateFirst updates record_id now records with
      | some records' => (dset tables table_name records', true)
      | none => (tables, false)

/-- Search loop of database.py `Database.delete`: remove the first record
whose `record.get('id')` equals the requested id; `none` when no record
matches. -/
def deleteFirst (record_id : String) : Table → Option Table
  | [] => none
  | r :: rs =>
      if dget r "id" = some (.vStr record_id) then some rs
      else
        match deleteFirst record_id rs with
        | some rs' => some (r :: rs')
        | none => none

/-- database.py `Database.delete`: `False` when the table is missing or no
record carries the id, otherwise the store without the first matching record
and `True`. -/
def Database.delete (tables : Tables) (table_name record_id : String) :
    Tables × Bool :=
  match dget tables table_name with
  | none => (tables, false)
  | some records =>
      match deleteFirst record_id records with
      | some records' => (dset tables table_name records', true)
      | none => (tables, false)

/-- database.py `InMemoryDatabase`: two `Dict[int, Dict[str, Any]]` stores and
two auto-increment id counters. -/
structure InMemoryDatabase where
  users : Dict Int Record
  products : Dict Int Record
  user_id_seq : Int
  product_id_seq : Int
deriving DecidableEq, Repr

/-- Initial `InMemoryDatabase()` state: empty dicts, counters at 0. -/
def InMemoryDatabase.empty : InMemoryDatabase := ⟨[], [], 0, 0⟩

/-- database.py `InMemoryDatabase.create_user`: bump the counter, build the
record from `user_data.get(...)` (missing fields become `None`, `is_active`
defaults to `True`, `created_at` defaults to the current time `now`), store at
the new id and return it. -/
def InMemoryDatabase.create_user (db : InMemoryDatabase) (user_data : Record)
    (now : String) : InMemoryDatabase × Int :=
  let user_id := db.user_id_seq + 1
  let record : Record :=
    [("user_id", .vInt user_id),
     ("username", (dget user_data "username").getD .vNull),
     ("email", (dget user_data "email").getD .vNull),
     ("is_active", (dget user_data "is_active").getD (.vBool true)),
     ("created_at", (dget user_data "created_at").getD (.vStr now))]
  ({ db with users := dset db.users user_id record, user_id_seq := user_id },
   user_id)

/-- database.py `InMemoryDatabase.get_user`: `self.users.get(user_id)`. -/
def InMemoryDatabase.get_user (db : InMemoryDatabase) (user_id : Int) :
    Option Record :=
  dget db.users user_id

/-- database.py `InMemoryDatabase.list_users`: `list(self.users.values())`,
in dict insertion order. -/
def InMemoryDatabase.list_users (db : InMemoryDatabase) : List Record :=
  db.users.map Prod.snd

/-- database.py `InMemoryDatabase.update_user`: `False` when the id is absent;
otherwise merge the updates minus the `"user_id"` key into a copy of the
record, stamp `updated_at`, store it back and return `True`. -/
def InMemoryDatabase.update_user (db : InMemoryDatabase) (user_id : Int)
    (updates : Record) (now : String) : InMemoryDatabase × Bool :=
  match dget db.users user_id with
  | none => (db, false)
  | some record =>
      let record1 := dset (applyUpdatesExcept "user_id" updates record)
        "updated_at" (.vStr now)
      ({ db with users := dset db.users user_id record1 }, true)

/-- database.py `InMemoryDatabase.delete_user`:
`self.users.pop(user_id, None) is not None`. -/
def InMemoryDatabase.delete_user (db : InMemoryDatabase) (user_id : Int) :
    InMemoryDatabase × Bool :=
  let r := dpop db.users user_id
  ({ db with users := r.1 }, r.2.isSome)

/-- database.py `InMemoryDatabase.create_product`: bump the counter, build the
record from `product_data.get(...)` (missing fields become `None`, `stock`
defaults to `0`, `is_available` defaults to `True`, `created_at` defaults to
the current time `now`), store at the new id and return it. -/
def InMemoryDatabase.create_product (db : InMemoryDatabase)
    (product_data : Record) (now : String) : InMemoryDatabase × Int :=
  let product_id := db.product_id_seq + 1
  let record : Record :=
    [("product_id", .vInt product_id),
     ("name", (dget product_data "name").getD .vNull),
     ("description", (dget product_data "description").getD .vNull),
     ("price", (dget product_data "price").getD .vNull),
     ("stock", (dget product_data "stock").getD (.vInt 0)),
     ("is_available", (dget product_data "is_available").getD (.vBool true)),
     ("created_at", (dget product_data "created_at").getD (.vStr now))]
  ({ db with products := dset db.products product_id record,
             product_id_seq := product_id },
   product_id)

/-- database.py `InMemoryDatabase.get_product`: `self.products.get(product_id)`. -/
def InMemoryDatabase.get_product (db : InMemoryDatabase) (product_id : Int) :
    Option Record :=
  dget db.products product_id

/-- database.py `InMemoryDatabase.list_products`: `list(self.products.values())`. -/
def InMemoryDatabase.list_products (db : InMemoryDatabase) : List Record :=
  db.products.map Prod.snd

/-- database.py `InMemoryDatabase.update_product`: same shape as
`update_user`, with `"product_id"` as the protected key. -/
def InMemoryDatabase.update_product (db : InMemoryDatabase) (product_id : Int)
    (updates : Record) (now : String) : InMemoryDatabase × Bool :=
  match dget db.products product_id with
  | none => (db, false)
  | some record =>
      let record1 := dset (applyUpdatesExcept "product_id" updates record)
        "updated_at" (.vStr now)
      ({ db with products := dset db.products product_id record1 }, true)

/-- database.py `InMemoryDatabase.delete_product`:
`self.products.pop(product_id, None) is not None`. -/
def InMemoryDatabase.delete_product (db : InMemoryDatabase) (product_id : Int) :
    InMemoryDatabase × Bool :=
  let r := dpop db.products product_id
  ({ db with products := r.1 }, r.2.isSome)

/-- The attribute names the class body of `InMemoryDatabase`
(database.py lines 219-312) actually defines: its methods. Order endpoints in
main.py call `in_memory_db.create_order` / `get_order` / `list_orders` /
`update_order` / `delete_order`, none of which appears here, so those calls
raise `AttributeError` at run time. -/
def inMemoryDatabaseMethods : List String :=
  ["create_user", "get_user", "list_users", "update_user", "delete_user",
   "create_product", "get_product", "list_products", "update_product",
   "delete_product", "reset"]

/-- Projection for a stored string-valued field of a record the handler has
itself just written (the fallback branch is unreachable in the states the
theorems below evaluate, because the handlers always store `vStr` there). -/
def Value.asStr : Value → String
  | .vStr s => s
  | _ => ""

/-- Projection for a stored int-valued field (same remark as `Value.asStr`). -/
def Value.asInt : Value → Int
  | .vInt n => n
  | _ => 0

/-- Projection for a stored bool-valued field (same remark as `Value.asStr`). -/
def Value.asBool : Value → Bool
  | .vBool b => b
  | _ => false

/-- Projection for a stored numeric field, used for `total_amount += prod["price"]`
(same remark as `Value.asStr`; prices stored by the handlers are `vRat`). -/
def Value.asRat : Value → ℚ
  | .vRat q => q
  | .vInt n => (n : ℚ)
  | _ => 0

/-- main.py `UserCreate` after pydantic validation: `username`, `email`
(an `EmailStr`), `is_active` defaulting to `True`. -/
structure UserCreate where
  username : String
  email : String
  is_active : Bool := true
deriving DecidableEq, Repr

/-- main.py `ProductCreate` after pydantic validation. `is_available` is
declared `bool = True` — a plain bool with default, NOT `Optional[bool]` — so
after validation it always holds a bool, never `None`. -/
structure ProductCreate where
  name : String
  price : ℚ
  description : Option String := none
  stock : Int := 0
  is_available : Bool := true
deriving DecidableEq, Repr

/-- A raw POST /products JSON body: which optional fields the client supplied.
`none` means the field is absent from the request. -/
structure ProductCreateRequest where
  name : String
  price : ℚ
  description : Option String := none
  stock : Option Int := none
  is_available : Option Bool := none
deriving DecidableEq, Repr

/-- Pydantic validation of a POST /products body against `ProductCreate`:
each absent field takes the declared default — in particular an absent
`is_available` becomes `True` (and never `None`, since the field is a plain
`bool`), and an absent `stock` becomes `0`. -/
def ProductCreate.parse (r : ProductCreateRequest) : ProductCreate :=
  { name := r.name, price := r.price, description := r.description,
    stock := r.stock.getD 0, is_available := r.is_available.getD true }

/-- main.py `OrderCreate`: `user_id` and the list of referenced product ids. -/
structure OrderCreate where
  user_id : Int
  product_ids : List Int
deriving DecidableEq, Repr

/-- main.py `UserResponse`. -/
structure UserResponse where
  id : Int
  username : String
  email : String
  is_active : Bool
  created_at : String
deriving DecidableEq, Repr

/-- main.py `ProductResponse`; `description` keeps the raw stored value
(`vStr` or `vNull`). -/
structure ProductResponse where
  id : Int
  name : String
  price : ℚ
  description : Value
  stock : Int
  is_available : Bool
deriving DecidableEq, Repr

/-- main.py `OrderResponse` (never successfully built by the code, see
`api_create_order`). -/
structure OrderResponse where
  id : Int
  user_id : Int
  products : List ProductResponse
  total_amount : ℚ
  status : String
  created_at : String
deriving DecidableEq, Repr

/-- models.py `User` dataclass instance as stored in `data_store.users`
(the `datetime` is kept as its ISO string, which `isoformat`/`fromisoformat`
round-trip). -/
structure DSUser where
  id : Int
  username : String
  email : String
  created_at : String
  is_active : Bool
deriving DecidableEq, Repr

/-- models.py `Product` dataclass instance as stored in `data_store.products`. -/
structure DSProduct where
  id : Int
  name : String
  price : ℚ
  description : String
  stock : Int
deriving DecidableEq, Repr

/-- The mutable state the modelled main.py handlers touch: the global
`in_memory_db` plus the `data_store` lists they keep in sync. -/
structure AppState where
  imdb : InMemoryDatabase
  ds_users : List DSUser
  ds_products : List DSProduct
deriving DecidableEq, Repr

/-- Outcome of one handler call: normal JSON response with status code,
`HTTPException` with status code, or an uncaught Python exception (surfaced
by FastAPI as HTTP 500). Every constructor carries the store state at the
moment the handler returned or raised. -/
inductive HRes (α : Type) where
  | ok : AppState → Nat → α → HRes α
  | httpErr : AppState → Nat → HRes α
  | crash : AppState → String → HRes α
deriving DecidableEq, Repr

/-- Outcome of the duplicate-scan loops at the top of the create handlers. -/
inductive ScanResult where
  | ok
  | conflict
  | keyError
deriving DecidableEq, Repr

/-- main.py lines 244-248: scan `in_memory_db.list_users()` in order; raise
400 on the first user whose `u["username"]` equals the new username or whose
`u["email"]` equals the new email; a record missing either key would raise
`KeyError` at the subscript. -/
def userConflictScan (username email : String) : List Record → ScanResult
  | [] => .ok
  | u :: us =>
      match dget u "username" with
      | none => .keyError
      | some v =>
          if v = .vStr username then .conflict
          else
            match dget u "email" with
            | none => .keyError
            | some w =>
                if w = .vStr email then .conflict
                else userConflictScan username email us

/-- main.py lines 370-372: scan `in_memory_db.list_products()` in order;
raise 400 on the first product whose `p["name"]` equals the new name. -/
def productNameScan (name : String) : List Record → ScanResult
  | [] => .ok
  | p :: ps =>
      match dget p "name" with
      | none => .keyError
      | some v => if v = .vStr name then .conflict else productNameScan name ps

/-- models.py `User.__post_init__` check: `not self.email or '@' not in self.email`
raises `ValueError`. -/
def emailOk : Value → Bool
  | .vStr s => s ≠ "" && s.contains '@'
  | _ => false

/-- main.py `create_user` handler (POST /users, lines 240-272): duplicate
scan, then `InMemoryDatabase.create_user` with the handler-built field dict,
then sync a `models.User` into `data_store` (whose constructor re-checks the
email), then build the `UserResponse` from the stored record. -/
def api_create_user (st : AppState) (user : UserCreate) (now : String) :
    HRes UserResponse :=
  match userConflictScan user.username user.email st.imdb.list_users with
  | .conflict => .httpErr st 400
  | .keyError => .crash st "KeyError"
  | .ok =>
      let p := st.imdb.create_user
        [("username", .vStr user.username), ("email", .vStr user.email),
         ("is_active", .vBool user.is_active), ("created_at", .vStr now)] now
      let imdb1 := p.1
      let user_id := p.2
      match imdb1.get_user user_id with
      | none => .crash { st with imdb := imdb1 } "TypeError"
      | some record =>
          let emailV := (dget record "email").getD .vNull
          if emailOk emailV = false then
            .crash { st with imdb := imdb1 } "ValueError"
          else
            let dsu : DSUser :=
              { id := user_id,
                username := ((dget record "username").getD .vNull).asStr,
                email := emailV.asStr,
                created_at := ((dget record "created_at").getD .vNull).asStr,
                is_active := ((dget record "is_active").getD .vNull).asBool }
            .ok { st with imdb := imdb1, ds_users := st.ds_users ++ [dsu] } 201
              { id := ((dget record "user_id").getD .vNull).asInt,
                username := ((dget record "username").getD .vNull).asStr,
                email := emailV.asStr,
                is_active := ((dget record "is_active").getD .vNull).asBool,
                created_at := ((dget record "created_at").getD .vNull).asStr }

/-- models.py `Product` construction uses `record.get("description") or ""`:
`None` (and the empty string) becomes `""`. -/
def descOrEmpty : Value → String
  | .vStr s => s
  | _ => ""

/-- Optional description as stored by the create handler: `vStr` when the
client supplied one, `vNull` otherwise. -/
def descValue : Option String → Value
  | some s => .vStr s
  | none => .vNull

/-- main.py `create_product` handler (POST /products, lines 366-403): name
duplicate scan, then line 375
`is_available = product.is_available if product.is_available is not None else product.stock > 0`
— since `ProductCreate.is_available` is a plain `bool` (never `None`), the
first branch is always taken and the `stock > 0` fallback is dead — then
`InMemoryDatabase.create_product`, the `data_store` sync, and the response. -/
def api_create_product (st : AppState) (product : ProductCreate) (now : String) :
    HRes ProductResponse :=
  match productNameScan product.name st.imdb.list_products with
  | .conflict => .httpErr st 400
  | .keyError => .crash st "KeyError"
  | .ok =>
      let is_avail := product.is_available
      let p := st.imdb.create_product
        [("name", .vStr product.name), ("price", .vRat product.price),
         ("description", descValue product.description),
         ("stock", .vInt product.stock),
         ("is_available", .vBool is_avail), ("created_at", .vStr now)] now
      let imdb1 := p.1
      let product_id := p.2
      match imdb1.get_product product_id with
      | none => .crash { st with imdb := imdb1 } "TypeError"
      | some record =>
          let dsp : DSProduct :=
            { id := product_id,
              name := ((dget record "name").getD .vNull).asStr,
              price := ((dget record "price").getD .vNull).asRat,
              description := descOrEmpty ((dget record "description").getD .vNull),
              stock := ((dget record "stock").getD .vNull).asInt }
          .ok { st with imdb := imdb1, ds_products := st.ds_products ++ [dsp] } 201
            { id := ((dget record "product_id").getD .vNull).asInt,
              name := ((dget record "name").getD .vNull).asStr,
              price := ((dget record "price").getD .vNull).asRat,
              description := (dget record "description").getD .vNull,
              stock := ((dget record "stock").getD .vNull).asInt,
              is_available := ((dget record "is_available").getD .vNull).asBool }

/-- Outcome of the product-validation loop of the order handler. -/
inductive OrderCheck where
  | ok : ℚ → OrderCheck
  | notFound
  | unavailable
  | keyError
deriving DecidableEq, Repr

/-- main.py lines 564-571: for each referenced product id, 404 when the
product is missing, 400 when `prod.get("is_available", False)` is falsy,
otherwise `total_amount += prod["price"]` (a record without a price would
raise at the subscript). -/
def orderProductsLoop (db : InMemoryDatabase) : List Int → ℚ → OrderCheck
  | [], total => .ok total
  | pid :: rest, total =>
      match db.get_product pid with
      | none => .notFound
      | some prod =>
          if ((dget prod "is_available").getD (.vBool false)).truthy = false then
            .unavailable
          else
            match dget prod "price" with
            | none => .keyError
            | some priceV => orderProductsLoop db rest (total + priceV.asRat)

/-- main.py `create_order` handler (POST /orders, lines 555-581): check the
user exists (404), validate the products and accumulate the total, then
evaluate `in_memory_db.create_order`. Class `InMemoryDatabase`
(database.py lines 219-312) defines no attribute `create_order` — see
`inMemoryDatabaseMethods` — so the attribute lookup raises `AttributeError`
before anything is written; FastAPI surfaces it as HTTP 500. -/
def api_create_order (st : AppState) (order : OrderCreate) : HRes OrderResponse :=
  match st.imdb.get_user order.user_id with
  | none => .httpErr st 404
  | some _ =>
      match orderProductsLoop st.imdb order.product_ids 0 with
      | .notFound => .httpErr st 404
      | .unavailable => .httpErr st 400
      | .keyError => .crash st "KeyError"
      | .ok _total => .crash st "AttributeError: create_order"

/-! ### Dictionary lemmas -/

theorem dget_dset_self {α β : Type} [DecidableEq α] (d : Dict α β) (k : α) (v : β) :
    dget (dset d k v) k = some v := by
  induction d with
  | nil => simp [dget, dset]
  | cons kv rest ih =>
      obtain ⟨k', v'⟩ := kv
      by_cases h : k' = k
      · subst h; simp [dget, dset]
      · simp [dget, dset, h, ih]

theorem dget_dset_ne {α β : Type} [DecidableEq α] (d : Dict α β) (k k' : α) (v : β)
    (h : k' ≠ k) : dget (dset d k v) k' = dget d k' := by
  have hne : ¬k = k' := fun hh => h hh.symm
  induction d with
  | nil => simp [dget, dset, hne]
  | cons kv rest ih =>
      obtain ⟨k0, v0⟩ := kv
      by_cases h0 : k0 = k
      · subst h0; simp [dget, dset, hne]
      · simp [dget, dset, h0, ih]

theorem dset_of_dget_none {α β : Type} [DecidableEq α] (d : Dict α β) (k : α) (v : β)
    (h : dget d k = none) : dset d k v = d ++ [(k, v)] := by
  induction d with
  | nil => simp [dset]
  | cons kv rest ih =>
      obtain ⟨k0, v0⟩ := kv
      by_cases h0 : k0 = k
      · subst h0; simp [dget] at h
      · simp [dget, h0] at h
        simp [dset, h0, ih h]

theorem dget_append_of_none {α β : Type} [DecidableEq α] (d l : Dict α β) (k : α)
    (h : dget d k = none) : dget (d ++ l) k = dget l k := by
  induction d with
  | nil => simp
  | cons kv rest ih =>
      obtain ⟨k0, v0⟩ := kv
      by_cases h0 : k0 = k
      · subst h0; simp [dget] at h
      · simp [dget, h0] at h ⊢
        exact ih h

theorem dget_append_of_some {α β : Type} [DecidableEq α] (d l : Dict α β) (k : α)
    (v : β) (h : dget d k = some v) : dget (d ++ l) k = some v := by
  induction d with
  | nil => simp [dget] at h
  | cons kv rest ih =>
      obtain ⟨k0, v0⟩ := kv
      by_cases h0 : k0 = k
      · subst h0; simp [dget] at h ⊢; exact h
      · simp [dget, h0] at h ⊢
        exact ih h

theorem dget_isSome_iff_mem_keys {α β : Type} [DecidableEq α] (d : Dict α β) (k : α) :
    (dget d k).isSome = true ↔ k ∈ d.map Prod.fst := by
  induction d with
  | nil => simp [dget]
  | cons kv rest ih =>
      obtain ⟨k0, v0⟩ := kv
      by_cases h0 : k0 = k
      · subst h0; simp [dget]
      · have hne : ¬k = k0 := fun hh => h0 hh.symm
        simp [dget, h0, hne, ih]

theorem dget_eq_none_iff_not_mem_keys {α β : Type} [DecidableEq α] (d : Dict α β)
    (k : α) : dget d k = none ↔ k ∉ d.map Prod.fst := by
  rw [← dget_isSome_iff_mem_keys]
  cases h : dget d k <;> simp [h]

theorem keys_dset_of_isSome {α β : Type} [DecidableEq α] (d : Dict α β) (k : α)
    (v : β) (h : (dget d k).isSome) :
    (dset d k v).map Prod.fst = d.map Prod.fst := by
  induction d with
  | nil => simp [dget] at h
  | cons kv rest ih =>
      obtain ⟨k0, v0⟩ := kv
      by_cases h0 : k0 = k
      · subst h0; simp [dset]
      · simp [dget, h0] at h
        simp [dset, h0, ih h]

theorem keys_dset_of_none {α β : Type} [DecidableEq α] (d : Dict α β) (k : α)
    (v : β) (h : dget d k = none) :
    (dset d k v).map Prod.fst = d.map Prod.fst ++ [k] := by
  rw [dset_of_dget_none d k v h]; simp

theorem dpop_snd {α β : Type} [DecidableEq α] (d : Dict α β) (k : α) :
    (dpop d k).2 = dget d k := by
  induction d with
  | nil => simp [dpop, dget]
  | cons kv rest ih =>
      obtain ⟨k0, v0⟩ := kv
      by_cases h0 : k0 = k
      · subst h0; simp [dpop, dget]
      · simp [dpop, dget, h0, ih]

theorem dpop_keys_sublist {α β : Type} [DecidableEq α] (d : Dict α β) (k : α) :
    ((dpop d k).1.map Prod.fst).Sublist (d.map Prod.fst) := by
  induction d with
  | nil => simp [dpop]
  | cons kv rest ih =>
      obtain ⟨k0, v0⟩ := kv
      by_cases h0 : k0 = k
      · subst h0; simp [dpop]
      · simpa [dpop, h0] using ih.cons₂ k0

theorem dget_dpop_self {α β : Type} [DecidableEq α] (d : Dict α β) (k : α)
    (h : keysNodup d) : dget (dpop d k).1 k = none := by
  induction d with
  | nil => simp [dpop, dget]
  | cons kv rest ih =>
      obtain ⟨k0, v0⟩ := kv
      have h' : (k0 :: rest.map Prod.fst).Nodup := by simpa [keysNodup] using h
      have hrest : keysNodup rest := by
        simpa [keysNodup] using (List.nodup_cons.mp h').2
      by_cases h0 : k0 = k
      · subst h0
        have hnot : k0 ∉ rest.map Prod.fst := (List.nodup_cons.mp h').1
        have := (dget_eq_none_iff_not_mem_keys rest k0).mpr hnot
        simp [dpop, this]
      · simp [dpop, dget, h0, ih hrest]

theorem dget_dpop_ne {α β : Type} [DecidableEq α] (d : Dict α β) (k k' : α)
    (h : k' ≠ k) : dget (dpop d k).1 k' = dget d k' := by
  induction d with
  | nil => simp [dpop]
  | cons kv rest ih =>
      obtain ⟨k0, v0⟩ := kv
      have hne : ¬k = k' := fun hh => h hh.symm
      by_cases h0 : k0 = k
      · subst h0; simp [dpop, dget, hne]
      · simp [dpop, dget, h0, ih]

theorem dpop_of_dget_none {α β : Type} [DecidableEq α] (d : Dict α β) (k : α)
    (h : dget d k = none) : (dpop d k).1 = d := by
  induction d with
  | nil => simp [dpop]
  | cons kv rest ih =>
      obtain ⟨k0, v0⟩ := kv
      by_cases h0 : k0 = k
      · subst h0; simp [dget] at h
      · simp [dget, h0] at h
        simp [dpop, h0, ih h]

/-! ### Select lemmas -/

theorem recordMatches_iff (r w : Record) :
    recordMatches r w = true ↔ ∀ k v, (k, v) ∈ w → dget r k = some v := by
  induction w with
  | nil => simp [recordMatches]
  | cons kv rest ih =>
      obtain ⟨key, value⟩ := kv
      constructor
      · intro h k v hmem
        rcases List.mem_cons.mp hmem with hmem | hmem
        · rw [Prod.mk.injEq] at hmem
          obtain ⟨rfl, rfl⟩ := hmem
          cases hg : dget r k with
          | none => simp [recordMatches, hg] at h
          | some v' =>
              simp only [recordMatches, hg] at h
              by_cases hv : v' = v
              · rw [hv]
              · simp [hv] at h
        · cases hg : dget r key with
          | none => simp [recordMatches, hg] at h
          | some v' =>
              simp only [recordMatches, hg] at h
              by_cases hv : v' = value
              · simp only [hv, if_true] at h
                exact ih.mp h k v hmem
              · simp [hv] at h
      · intro h
        have h1 : dget r key = some value := h key value (by simp)
        have h2 : recordMatches r rest = true :=
          ih.mpr (fun k v hm => h k v (List.mem_cons_of_mem _ hm))
        simp [recordMatches, h1, h2]

theorem selectFilter_eq_filter (w : Record) (rs : Table) :
    selectFilter w rs = rs.filter (fun r => recordMatches r w) := by
  induction rs with
  | nil => simp [selectFilter]
  | cons r rest ih =>
      by_cases h : recordMatches r w
      · simp [selectFilter, List.filter, h, ih]
      · simp only [Bool.not_eq_true] at h
        simp [selectFilter, List.filter, h, ih]

theorem recordMatches_id_singleton (r : Record) (rid : String) :
    recordMatches r [("id", Value.vStr rid)] = true ↔
      dget r "id" = some (.vStr rid) := by
  cases hg : dget r "id" with
  | none => simp [recordMatches, hg]
  | some v =>
      by_cases hv : v = Value.vStr rid
      · simp [recordMatches, hg, hv]
      · simp [recordMatches, hg, hv]

/-! ### Update-merge lemmas -/

theorem dget_applyUpdatesExcept_idKey (idKey : String) (updates r : Record) :
    dget (applyUpdatesExcept idKey updates r) idKey = dget r idKey := by
  induction updates generalizing r with
  | nil => simp [applyUpdatesExcept]
  | cons kv rest ih =>
      obtain ⟨k, v⟩ := kv
      by_cases hk : k = idKey
      · simp [applyUpdatesExcept, hk] at ih ⊢
        exact ih r
      · simp only [applyUpdatesExcept, List.foldl_cons, hk, if_false] at ih ⊢
        rw [ih (dset r k v), dget_dset_ne r k idKey v (fun hh => hk hh.symm)]

theorem dget_applyUpdatesExcept_of_none (idKey : String) (updates r : Record)
    (k : String) (h : dget updates k = none) :
    dget (applyUpdatesExcept idKey updates r) k = dget r k := by
  induction updates generalizing r with
  | nil => simp [applyUpdatesExcept]
  | cons kv rest ih =>
      obtain ⟨k0, v0⟩ := kv
      have hk0 : ¬k0 = k := by
        intro hh; subst hh; simp [dget] at h
      have hrest : dget rest k = none := by simpa [dget, hk0] using h
      by_cases hid : k0 = idKey
      · simp only [applyUpdatesExcept, List.foldl_cons, hid, if_true] at ih ⊢
        exact ih r hrest
      · simp only [applyUpdatesExcept, List.foldl_cons, hid, if_false] at ih ⊢
        rw [ih (dset r k0 v0) hrest, dget_dset_ne r k0 k v0 (fun hh => hk0 hh.symm)]

theorem dget_applyUpdatesExcept_of_some (idKey : String) (updates r : Record)
    (k : String) (v : Value) (hnd : keysNodup updates) (hk : k ≠ idKey)
    (h : dget updates k = some v) :
    dget (applyUpdatesExcept idKey updates r) k = some v := by
  induction updates generalizing r with
  | nil => simp [dget] at h
  | cons kv rest ih =>
      obtain ⟨k0, v0⟩ := kv
      have h' : (k0 :: rest.map Prod.fst).Nodup := by simpa [keysNodup] using hnd
      have hrestnd : keysNodup rest := by
        simpa [keysNodup] using (List.nodup_cons.mp h').2
      by_cases h0 : k0 = k
      · subst h0
        have hv : v0 = v := by simpa [dget] using h
        subst hv
        have hid : ¬k0 = idKey := fun hh => hk (by rw [← hh])
        simp only [applyUpdatesExcept, List.foldl_cons, hid, if_false]
        have hnotmem : k0 ∉ rest.map Prod.fst := (List.nodup_cons.mp h').1
        have hrest0 : dget rest k0 = none :=
          (dget_eq_none_iff_not_mem_keys rest k0).mpr hnotmem
        have := dget_applyUpdatesExcept_of_none idKey rest (dset r k0 v0) k0 hrest0
        simp only [applyUpdatesExcept] at this
        rw [this, dget_dset_self]
      · have hrest : dget rest k = some v := by simpa [dget, h0] using h
        by_cases hid : k0 = idKey
        · simp only [applyUpdatesExcept, List.foldl_cons, hid, if_true] at ih ⊢
          exact ih r hrestnd hrest
        · simp only [applyUpdatesExcept, List.foldl_cons, hid, if_false] at ih ⊢
          exact ih (dset r k0 v0) hrestnd hrest

/-! ### updateFirst and deleteFirst lemmas -/

theorem updateFirst_eq_none_iff (u : Record) (rid now : String) (rs : Table) :
    updateFirst u rid now rs = none ↔
      ∀ r ∈ rs, dget r "id" ≠ some (.vStr rid) := by
  induction rs with
  | nil => simp [updateFirst]
  | cons r rest ih =>
      by_cases h : dget r "id" = some (.vStr rid)
      · constructor
        · intro hnone; simp [updateFirst, h] at hnone
        · intro hall; exact absurd h (hall r (by simp))
      · cases hrec : updateFirst u rid now rest with
        | some rs' =>
            constructor
            · intro hnone; simp [updateFirst, h, hrec] at hnone
            · intro hall
              have hn : updateFirst u rid now rest = none :=
                ih.mpr (fun r' hr' => hall r' (List.mem_cons_of_mem _ hr'))
              rw [hrec] at hn; cases hn
        | none =>
            have hall := ih.mp hrec
            constructor
            · intro _ r' hr'
              rcases List.mem_cons.mp hr' with hr' | hr'
              · subst hr'; exact h
              · exact hall r' hr'
            · intro _; simp [updateFirst, h, hrec]

theorem updateFirst_length (u : Record) (rid now : String) :
    ∀ (rs rs' : Table), updateFirst u rid now rs = some rs' →
      rs'.length = rs.length := by
  intro rs
  induction rs with
  | nil => intro rs' h; simp [updateFirst] at h
  | cons r rest ih =>
      intro rs' h
      by_cases hm : dget r "id" = some (.vStr rid)
      · simp only [updateFirst, hm, if_true, Option.some.injEq] at h
        subst h; simp
      · cases hrec : updateFirst u rid now rest with
        | none => simp [updateFirst, hm, hrec] at h
        | some rest' =>
            simp only [updateFirst, hm, if_false, hrec, Option.some.injEq] at h
            subst h
            simp [ih rest' hrec]

theorem updateFirst_frame (u : Record) (rid now : String) :
    ∀ (rs rs' : Table) (i : Nat) (r : Record), updateFirst u rid now rs = some rs' →
      rs[i]? = some r → dget r "id" ≠ some (.vStr rid) → rs'[i]? = some r := by
  intro rs
  induction rs with
  | nil => intro rs' i r h; simp [updateFirst] at h
  | cons r0 rest ih =>
      intro rs' i r h hget hne
      by_cases hm : dget r0 "id" = some (.vStr rid)
      · simp only [updateFirst, hm, if_true, Option.some.injEq] at h
        subst h
        cases i with
        | zero =>
            simp at hget
            subst hget
            exact absurd hm hne
        | succ n => simpa using (by simpa using hget : rest[n]? = some r)
      · cases hrec : updateFirst u rid now rest with
        | none => simp [updateFirst, hm, hrec] at h
        | some rest' =>
            simp only [updateFirst, hm, if_false, hrec, Option.some.injEq] at h
            subst h
            cases i with
            | zero => simpa using hget
            | succ n =>
                simp only [List.getElem?_cons_succ] at hget ⊢
                exact ih rest' n r hrec hget hne

theorem updateFirst_single_diff (u : Record) (rid now : String) :
    ∀ (rs rs' : Table), updateFirst u rid now rs = some rs' →
      ∀ (i j : Nat), rs'[i]? ≠ rs[i]? → rs'[j]? ≠ rs[j]? → i = j := by
  intro rs
  induction rs with
  | nil => intro rs' h; simp [updateFirst] at h
  | cons r0 rest ih =>
      intro rs' h i j hi hj
      by_cases hm : dget r0 "id" = some (.vStr rid)
      · simp only [updateFirst, hm, if_true, Option.some.injEq] at h
        subst h
        cases i with
        | zero =>
            cases j with
            | zero => rfl
            | succ m => simp at hj
        | succ n => simp at hi
      · cases hrec : updateFirst u rid now rest with
        | none => simp [updateFirst, hm, hrec] at h
        | some rest' =>
            simp only [updateFirst, hm, if_false, hrec, Option.some.injEq] at h
            subst h
            cases i with
            | zero => simp at hi
            | succ n =>
                cases j with
                | zero => simp at hj
                | succ m =>
                    simp only [List.getElem?_cons_succ] at hi hj
                    exact congrArg Nat.succ (ih rest' hrec n m hi hj)

theorem updateFirst_set_spec (u : Record) (rid now : String) :
    ∀ (rs : Table) (n : Nat) (r : Record), rs[n]? = some r →
      dget r "id" = some (.vStr rid) →
      (∀ m r', m < n → rs[m]? = some r' → dget r' "id" ≠ some (.vStr rid)) →
      updateFirst u rid now rs = some (rs.set n (mergeRecord u r now)) := by
  intro rs
  induction rs with
  | nil => intro n r h; simp at h
  | cons r0 rest ih =>
      intro n r hget hid hbefore
      cases n with
      | zero =>
          simp only [List.getElem?_cons_zero, Option.some.injEq] at hget
          subst hget
          simp [updateFirst, hid, List.set]
      | succ n =>
          have h0 : dget r0 "id" ≠ some (.vStr rid) :=
            hbefore 0 r0 (Nat.succ_pos n) (by simp)
          simp only [List.getElem?_cons_succ] at hget
          have hb : ∀ m r', m < n → rest[m]? = some r' →
              dget r' "id" ≠ some (.vStr rid) := by
            intro m r' hm hg
            exact hbefore (m + 1) r' (Nat.succ_lt_succ hm) (by simpa using hg)
          have := ih n r hget hid hb
          simp [updateFirst, h0, this, List.set]

theorem deleteFirst_eq_none_iff (rid : String) (rs : Table) :
    deleteFirst rid rs = none ↔
      ∀ r ∈ rs, dget r "id" ≠ some (.vStr rid) := by
  induction rs with
  | nil => simp [deleteFirst]
  | cons r rest ih =>
      by_cases h : dget r "id" = some (.vStr rid)
      · constructor
        · intro hnone; simp [deleteFirst, h] at hnone
        · intro hall; exact absurd h (hall r (by simp))
      · cases hrec : deleteFirst rid rest with
        | some rs' =>
            constructor
            · intro hnone; simp [deleteFirst, h, hrec] at hnone
            · intro hall
              have hn : deleteFirst rid rest = none :=
                ih.mpr (fun r' hr' => hall r' (List.mem_cons_of_mem _ hr'))
              rw [hrec] at hn; cases hn
        | none =>
            have hall := ih.mp hrec
            constructor
            · intro _ r' hr'
              rcases List.mem_cons.mp hr' with hr' | hr'
              · subst hr'; exact h
              · exact hall r' hr'
            · intro _; simp [deleteFirst, h, hrec]

theorem deleteFirst_no_match (rid : String) :
    ∀ (rs rs' : Table), deleteFirst rid rs = some rs' →
      rs.countP (fun r => decide (dget r "id" = some (.vStr rid))) ≤ 1 →
      ∀ r ∈ rs', dget r "id" ≠ some (.vStr rid) := by
  intro rs
  induction rs with
  | nil => intro rs' h; simp [deleteFirst] at h
  | cons r0 rest ih =>
      intro rs' h hcount
      by_cases hm : dget r0 "id" = some (.vStr rid)
      · simp only [deleteFirst, hm, if_true, Option.some.injEq] at h
        subst h
        have hc0 : rest.countP (fun r => decide (dget r "id" = some (.vStr rid))) = 0 := by
          have hd : (fun r => decide (dget r "id" = some (Value.vStr rid))) r0 = true := by
            simp [hm]
          rw [List.countP_cons_of_pos _ rest hd] at hcount
          omega
        intro r hr
        have := List.countP_eq_zero.mp hc0 r hr
        simpa using this
      · cases hrec : deleteFirst rid rest with
        | none => simp [deleteFirst, hm, hrec] at h
        | some rest' =>
            simp only [deleteFirst, hm, if_false, hrec, Option.some.injEq] at h
            subst h
            have hc : rest.countP (fun r => decide (dget r "id" = some (.vStr rid))) ≤ 1 := by
              have hd : ¬(fun r => decide (dget r "id" = some (Value.vStr rid))) r0 = true := by
                simp [hm]
              rw [List.countP_cons_of_neg _ rest hd] at hcount
              exact hcount
            intro r hr
            rcases List.mem_cons.mp hr with hr | hr
            · subst hr; exact hm
            · exact ih rest' hrec hc r hr

/-- Resulting table after `Database.insert`: the previous contents (empty for
a fresh table) with the id- and timestamp-stamped record appended. -/
theorem insert_table_eq (tables : Tables) (tn : String) (f : Record)
    (new_id now : String) :
    dget (Database.insert tables tn f new_id now).1 tn =
      some ((dget tables tn).getD [] ++
        [dset (dset f "id" (.vStr new_id)) "created_at" (.vStr now)]) := by
  cases h : dget tables tn with
  | none =>
      simp [Database.insert, Database.create_table, h, dget_dset_self]
  | some records =>
      simp [Database.insert, h, dget_dset_self]

/-! ### Claim theorems -/

/-- C9: `Database.create_table` is idempotent: on a name whose table already
exists it is a no-op (the whole store, hence the existing table and all its
records, is unchanged), and calling it twice in a row with the same name
yields the same store as calling it once. -/
theorem c9_create_table_idempotent (tables : Tables) (name : String) :
    ((dget tables name).isSome = true → Database.create_table tables name = tables) ∧
    Database.create_table (Database.create_table tables name) name =
      Database.create_table tables name := by
  constructor
  · intro h; simp [Database.create_table, h]
  · by_cases h : (dget tables name).isSome
    · simp [Database.create_table, h]
    · simp only [Database.create_table, h, if_false]
      simp [dget_dset_self]

/-- C9 witness: the second `create_table "users"` on a store that already has
the table leaves the store exactly as it was. -/
theorem c9_create_table_idempotent_witness :
    Database.create_table [("users", ([] : Table))] "users" =
      [("users", ([] : Table))] :=
  (c9_create_table_idempotent [("users", [])] "users").1 (by decide)

/-- C4: `Database.select` with a where-dict returns exactly the records of
the stored table all of whose predicate fields are present with an equal
value — a filter of the table, hence in original insertion order and empty
when nothing matches — and the empty sequence when the table does not exist. -/
theorem c4_select_is_filter (tables : Tables) (table_name : String) (w : Record) :
    Database.select tables table_name (some w) =
      ((dget tables table_name).getD []).filter (fun r => recordMatches r w) ∧
    (∀ r : Record, recordMatches r w = true ↔
      ∀ k v, (k, v) ∈ w → dget r k = some v) ∧
    (dget tables table_name = none →
      Database.select tables table_name (some w) = []) := by
  refine ⟨?_, fun r => recordMatches_iff r w, ?_⟩
  · cases h : dget tables table_name with
    | none => simp [Database.select, h]
    | some records => simp [Database.select, h, selectFilter_eq_filter]
  · intro h; simp [Database.select, h]

/-- C4 witness: on a store without table `"t"`, select returns the empty
sequence. -/
theorem c4_select_is_filter_witness :
    Database.select [("products", [[("price", Value.vRat 1)]])] "t"
      (some [("price", Value.vRat 1)]) = [] :=
  (c4_select_is_filter [("products", [[("price", Value.vRat 1)]])] "t"
    [("price", Value.vRat 1)]).2.2 (by decide)

/-- C3 counterexample: the claim quantifies over every field mapping, but
`Database.insert` overwrites an input field named `"id"` with the generated
identifier: inserting `{"id": "mine"}` stores and returns a record whose
`"id"` field is the generated `"gen"`, not the caller's `"mine"` — an input
field was altered. -/
theorem c3_counterexample :
    (Database.insert [] "t" [("id", Value.vStr "mine")] "gen" "ts").2 = "gen" ∧
    Database.select (Database.insert [] "t" [("id", Value.vStr "mine")] "gen" "ts").1
        "t" (some [("id", Value.vStr "gen")]) =
      [[("id", Value.vStr "gen"), ("created_at", Value.vStr "ts")]] ∧
    dget [("id", Value.vStr "mine")] "id" = some (Value.vStr "mine") ∧
    dget [("id", Value.vStr "gen"), ("created_at", Value.vStr "ts")] "id" ≠
      some (Value.vStr "mine") := by
  decide

/-- C3 (amended): for every store state and every field mapping `f` that does
not itself contain the generated keys `"id"` and `"created_at"`, and whose
freshly generated identifier does not already occur in the stored collection,
inserting `f` and then fetching by the returned id yields exactly one record,
namely `f`'s fields unchanged followed by the generated id and the creation
timestamp. -/
theorem c3_insert_roundtrip (tables : Tables) (tn : String) (f : Record)
    (new_id now : String)
    (hid : dget f "id" = none) (hca : dget f "created_at" = none)
    (hfresh : ∀ r ∈ (dget tables tn).getD [], dget r "id" ≠ some (.vStr new_id)) :
    (Database.insert tables tn f new_id now).2 = new_id ∧
    Database.select (Database.insert tables tn f new_id now).1 tn
        (some [("id", Value.vStr new_id)]) =
      [f ++ [("id", Value.vStr new_id), ("created_at", Value.vStr now)]] := by
  refine ⟨rfl, ?_⟩
  have hrec : dset (dset f "id" (.vStr new_id)) "created_at" (.vStr now) =
      f ++ [("id", Value.vStr new_id), ("created_at", Value.vStr now)] := by
    rw [dset_of_dget_none f _ _ hid]
    have hcat : dget (f ++ [("id", Value.vStr new_id)]) "created_at" = none := by
      rw [dget_append_of_none _ _ _ hca]; simp [dget]
    rw [dset_of_dget_none _ _ _ hcat]
    simp
  have htbl := insert_table_eq tables tn f new_id now
  rw [hrec] at htbl
  have hmatch : recordMatches
      (f ++ [("id", Value.vStr new_id), ("created_at", Value.vStr now)])
      [("id", Value.vStr new_id)] = true := by
    rw [recordMatches_id_singleton]
    rw [dget_append_of_none _ _ _ hid]
    simp [dget]
  simp only [Database.select, htbl]
  rw [selectFilter_eq_filter, List.filter_append]
  have hold : ((dget tables tn).getD []).filter
      (fun r => recordMatches r [("id", Value.vStr new_id)]) = [] := by
    rw [List.filter_eq_nil_iff]
    intro r hr
    by_cases hb : recordMatches r [("id", Value.vStr new_id)] = true
    · exact absurd ((recordMatches_id_singleton r new_id).mp hb) (hfresh r hr)
    · simp only [Bool.not_eq_true] at hb
      simp [hb]
  rw [hold]
  simp [List.filter, hmatch]

/-- C3 witness: inserting a one-field record into an empty store and fetching
it back by the returned id yields exactly that record plus id and timestamp. -/
theorem c3_insert_roundtrip_witness :
    Database.select
        (Database.insert [] "users" [("name", Value.vStr "a")] "u1" "t1").1
        "users" (some [("id", Value.vStr "u1")]) =
      [[("name", Value.vStr "a"), ("id", Value.vStr "u1"),
        ("created_at", Value.vStr "t1")]] :=
  (c3_insert_roundtrip [] "users" [("name", Value.vStr "a")] "u1" "t1"
    (by decide) (by decide) (by decide)).2

/-- C7: delete returns true exactly when a record with the id existed; after
a successful delete a select by that id finds nothing (given the C8 invariant
that at most one record bears the id); a delete that returns false — in
particular for an unknown id — returns normally and leaves the store
unchanged. The same facts hold for `InMemoryDatabase.delete_user`. -/
theorem c7_delete_spec (tables : Tables) (tn rid : String)
    (db : InMemoryDatabase) (uid : Int) :
    ((Database.delete tables tn rid).2 = true ↔
      ∃ r ∈ (dget tables tn).getD [], dget r "id" = some (.vStr rid)) ∧
    (((dget tables tn).getD []).countP
        (fun r => decide (dget r "id" = some (.vStr rid))) ≤ 1 →
      Database.select (Database.delete tables tn rid).1 tn
        (some [("id", Value.vStr rid)]) = []) ∧
    ((Database.delete tables tn rid).2 = false →
      (Database.delete tables tn rid).1 = tables) ∧
    ((db.delete_user uid).2 = true ↔ (dget db.users uid).isSome = true) ∧
    (keysNodup db.users → dget (db.delete_user uid).1.users uid = none) ∧
    ((db.delete_user uid).2 = false → (db.delete_user uid).1 = db) := by
  refine ⟨?_, ?_, ?_, ?_, ?_, ?_⟩
  · cases h : dget tables tn with
    | none => simp [Database.delete, h]
    | some records =>
        cases hdel : deleteFirst rid records with
        | none =>
            have hall := (deleteFirst_eq_none_iff rid records).mp hdel
            simp only [Database.delete, h, hdel, Option.getD_some]
            constructor
            · intro hfalse; cases hfalse
            · rintro ⟨r, hr, hid⟩; exact absurd hid (hall r hr)
        | some records' =>
            simp only [Database.delete, h, hdel, Option.getD_some]
            constructor
            · intro _
              by_contra hno
              push_neg at hno
              have : deleteFirst rid records = none :=
                (deleteFirst_eq_none_iff rid records).mpr hno
              rw [hdel] at this; cases this
            · intro _; trivial
  · intro hcount
    cases h : dget tables tn with
    | none => simp [Database.delete, Database.select, h]
    | some records =>
        cases hdel : deleteFirst rid records with
        | none =>
            have hall := (deleteFirst_eq_none_iff rid records).mp hdel
            simp only [Database.delete, h, hdel, Database.select,
              selectFilter_eq_filter]
            rw [List.filter_eq_nil_iff]
            intro r hr
            by_cases hb : recordMatches r [("id", Value.vStr rid)] = true
            · exact absurd ((recordMatches_id_singleton r rid).mp hb) (hall r hr)
            · simp only [Bool.not_eq_true] at hb
              simp [hb]
        | some records' =>
            rw [h] at hcount
            simp only [Option.getD_some] at hcount
            have hall := deleteFirst_no_match rid records records' hdel hcount
            simp only [Database.delete, h, hdel]
            simp only [Database.select, dget_dset_self, selectFilter_eq_filter]
            rw [List.filter_eq_nil_iff]
            intro r hr
            by_cases hb : recordMatches r [("id", Value.vStr rid)] = true
            · exact absurd ((recordMatches_id_singleton r rid).mp hb) (hall r hr)
            · simp only [Bool.not_eq_true] at hb
              simp [hb]
  · cases h : dget tables tn with
    | none => intro _; simp [Database.delete, h]
    | some records =>
        cases hdel : deleteFirst rid records with
        | none => intro _; simp [Database.delete, h, hdel]
        | some records' => simp [Database.delete, h, hdel]
  · cases h : dget db.users uid with
    | none =>
        simp [InMemoryDatabase.delete_user, dpop_snd, h]
    | some rec =>
        simp [InMemoryDatabase.delete_user, dpop_snd, h]
  · intro hnd
    simp [InMemoryDatabase.delete_user, dget_dpop_self db.users uid hnd]
  · intro hfalse
    have h2 : (dpop db.users uid).2 = none := by
      simp only [InMemoryDatabase.delete_user] at hfalse
      cases hh : (dpop db.users uid).2 with
      | none => rfl
      | some v => rw [hh] at hfalse; cases hfalse
    rw [dpop_snd] at h2
    have := dpop_of_dget_none db.users uid h2
    simp [InMemoryDatabase.delete_user, this]

/-- C7 witness: deleting the only record of `"users"` succeeds; re-selecting
the id afterwards finds nothing; deleting an unknown id on the dict store
returns false and leaves the store unchanged. -/
theorem c7_delete_spec_witness :
    (Database.delete [("users", [[("id", Value.vStr "u1")]])] "users" "u1").2 = true ∧
    Database.select
        (Database.delete [("users", [[("id", Value.vStr "u1")]])] "users" "u1").1
        "users" (some [("id", Value.vStr "u1")]) = [] ∧
    (InMemoryDatabase.empty.delete_user 5).2 = false ∧
    (InMemoryDatabase.empty.delete_user 5).1 = InMemoryDatabase.empty := by
  have h := c7_delete_spec [("users", [[("id", Value.vStr "u1")]])] "users" "u1"
    InMemoryDatabase.empty 5
  refine ⟨h.1.mpr ⟨[("id", Value.vStr "u1")], by decide, by decide⟩,
    h.2.1 (by decide), ?_, h.2.2.2.2.2 (by decide)⟩
  decide

/-- C5: update semantics. `Database.update` returns true exactly when a
record with the id is found; on the merged record the `"id"` field is exactly
the old one — even when the updates dict contains an `"id"` entry, which is
silently ignored — the update timestamp is stamped, every other updated field
takes the value from the updates dict and every untouched field keeps its old
value; a successful update stores the merged version of the first matching
record. `InMemoryDatabase.update_user` / `update_product` likewise ignore
`"user_id"` / `"product_id"` in the input and report whether the id existed. -/
theorem c5_update_ignores_identifier (tables : Tables) (tn rid : String)
    (updates : Record) (now : String) (r : Record) (k : String) (v : Value)
    (db : InMemoryDatabase) (uid pid : Int) :
    ((Database.update tables tn rid updates now).2 = true ↔
      ∃ r' ∈ (dget tables tn).getD [], dget r' "id" = some (.vStr rid)) ∧
    dget (mergeRecord updates r now) "id" = dget r "id" ∧
    dget (mergeRecord updates r now) "updated_at" = some (.vStr now) ∧
    (keysNodup updates → k ≠ "id" → k ≠ "updated_at" →
      dget updates k = some v → dget (mergeRecord updates r now) k = some v) ∧
    (k ≠ "updated_at" → dget updates k = none →
      dget (mergeRecord updates r now) k = dget r k) ∧
    (∀ (records : Table) (n : Nat),
      dget tables tn = some records → records[n]? = some r →
      dget r "id" = some (.vStr rid) →
      (∀ m r', m < n → records[m]? = some r' → dget r' "id" ≠ some (.vStr rid)) →
      dget (Database.update tables tn rid updates now).1 tn =
        some (records.set n (mergeRecord updates r now))) ∧
    ((db.update_user uid updates now).2 = true ↔
      (dget db.users uid).isSome = true) ∧
    (∀ rec, dget db.users uid = some rec →
      dget (db.update_user uid updates now).1.users uid =
        some (dset (applyUpdatesExcept "user_id" updates rec)
          "updated_at" (.vStr now))) ∧
    (∀ rec : Record, dget (applyUpdatesExcept "user_id" updates rec) "user_id" =
      dget rec "user_id") ∧
    ((db.update_product pid updates now).2 = true ↔
      (dget db.products pid).isSome = true) ∧
    (∀ rec : Record,
      dget (applyUpdatesExcept "product_id" updates rec) "product_id" =
        dget rec "product_id") := by
  refine ⟨?_, ?_, ?_, ?_, ?_, ?_, ?_, ?_, ?_, ?_, ?_⟩
  · cases h : dget tables tn with
    | none => simp [Database.update, h]
    | some records =>
        cases hup : updateFirst updates rid now records with
        | none =>
            have hall := (updateFirst_eq_none_iff updates rid now records).mp hup
            simp only [Database.update, h, hup, Option.getD_some]
            constructor
            · intro hfalse; cases hfalse
            · rintro ⟨r', hr', hid⟩; exact absurd hid (hall r' hr')
        | some records' =>
            simp only [Database.update, h, hup, Option.getD_some]
            constructor
            · intro _
              by_contra hno
              push_neg at hno
              have hn : updateFirst updates rid now records = none :=
                (updateFirst_eq_none_iff updates rid now records).mpr hno
              rw [hup] at hn; cases hn
            · intro _; trivial
  · rw [mergeRecord, dget_dset_ne _ _ _ _ (by decide)]
    exact dget_applyUpdatesExcept_idKey "id" updates r
  · rw [mergeRecord, dget_dset_self]
  · intro hnd hkid hkup hu
    rw [mergeRecord, dget_dset_ne _ _ _ _ hkup]
    exact dget_applyUpdatesExcept_of_some "id" updates r k v hnd hkid hu
  · intro hkup hu
    rw [mergeRecord, dget_dset_ne _ _ _ _ hkup]
    exact dget_applyUpdatesExcept_of_none "id" updates r k hu
  · intro records n hrecs hget hid hbefore
    have hup := updateFirst_set_spec updates rid now records n r hget hid hbefore
    simp only [Database.update, hrecs, hup]
    exact dget_dset_self tables tn _
  · cases h : dget db.users uid with
    | none => simp [InMemoryDatabase.update_user, h]
    | some rec => simp [InMemoryDatabase.update_user, h]
  · intro rec h
    simp only [InMemoryDatabase.update_user, h]
    exact dget_dset_self db.users uid _
  · intro rec
    exact dget_applyUpdatesExcept_idKey "user_id" updates rec
  · cases h : dget db.products pid with
    | none => simp [InMemoryDatabase.update_product, h]
    | some rec => simp [InMemoryDatabase.update_product, h]
  · intro rec
    exact dget_applyUpdatesExcept_idKey "product_id" updates rec

/-- C5 witness: updating a stored user record with a payload that tries to
overwrite `"user_id"` leaves the stored identifier untouched while the other
field is merged. -/
theorem c5_update_ignores_identifier_witness :
    dget (applyUpdatesExcept "user_id"
        [("user_id", Value.vInt 99), ("username", Value.vStr "b")]
        [("user_id", Value.vInt 1), ("username", Value.vStr "a")]) "user_id" =
      some (Value.vInt 1) ∧
    dget (mergeRecord [("id", Value.vStr "evil")] [("id", Value.vStr "orig")] "t")
        "id" = some (Value.vStr "orig") := by
  have h := c5_update_ignores_identifier [] "t" "x"
    [("id", Value.vStr "evil")] "t" [("id", Value.vStr "orig")] "k" Value.vNull
    InMemoryDatabase.empty 0 0
  have h2 := c5_update_ignores_identifier [] "t" "x"
    [("user_id", Value.vInt 99), ("username", Value.vStr "b")] "t"
    [("id", Value.vStr "orig")] "k" Value.vNull InMemoryDatabase.empty 0 0
  refine ⟨?_, ?_⟩
  · rw [h2.2.2.2.2.2.2.2.2.1 [("user_id", Value.vInt 1), ("username", Value.vStr "a")]]
    decide
  · rw [h.2.1]
    decide

/-- C10: frame property of update. `Database.update` touches at most the
single (first) record whose identifier equals the requested id: any record
with a different identifier keeps its exact value and position, the table
keeps its length, every other table is untouched, at most one position of the
table differs from before, and a call that returns false leaves the whole
store unchanged. `InMemoryDatabase.update_user` / `update_product` touch only
the one keyed record: the other collection, both id sequence counters and
every other key are unchanged, and a false return means the state is
unchanged. -/
theorem c10_update_frame (tables : Tables) (tn rid : String) (updates : Record)
    (now : String) (db : InMemoryDatabase) (uid pid : Int) :
    ((Database.update tables tn rid updates now).2 = false →
      (Database.update tables tn rid updates now).1 = tables) ∧
    (∀ tn', tn' ≠ tn →
      dget (Database.update tables tn rid updates now).1 tn' = dget tables tn') ∧
    (((dget (Database.update tables tn rid updates now).1 tn).getD []).length =
      ((dget tables tn).getD []).length) ∧
    (∀ (i : Nat) (r : Record), ((dget tables tn).getD [])[i]? = some r →
      dget r "id" ≠ some (.vStr rid) →
      ((dget (Database.update tables tn rid updates now).1 tn).getD [])[i]? =
        some r) ∧
    (∀ (i j : Nat),
      ((dget (Database.update tables tn rid updates now).1 tn).getD [])[i]? ≠
        ((dget tables tn).getD [])[i]? →
      ((dget (Database.update tables tn rid updates now).1 tn).getD [])[j]? ≠
        ((dget tables tn).getD [])[j]? → i = j) ∧
    ((db.update_user uid updates now).1.products = db.products) ∧
    ((db.update_user uid updates now).1.user_id_seq = db.user_id_seq) ∧
    ((db.update_user uid updates now).1.product_id_seq = db.product_id_seq) ∧
    (∀ kk : Int, kk ≠ uid →
      dget (db.update_user uid updates now).1.users kk = dget db.users kk) ∧
    ((db.update_user uid updates now).2 = false →
      (db.update_user uid updates now).1 = db) ∧
    ((db.update_product pid updates now).1.users = db.users) ∧
    ((db.update_product pid updates now).1.user_id_seq = db.user_id_seq) ∧
    ((db.update_product pid updates now).1.product_id_seq = db.product_id_seq) ∧
    (∀ kk : Int, kk ≠ pid →
      dget (db.update_product pid updates now).1.products kk =
        dget db.products kk) ∧
    ((db.update_product pid updates now).2 = false →
      (db.update_product pid updates now).1 = db) := by
  refine ⟨?_, ?_, ?_, ?_, ?_, ?_, ?_, ?_, ?_, ?_, ?_, ?_, ?_, ?_, ?_⟩
  · cases h : dget tables tn with
    | none => intro _; simp [Database.update, h]
    | some records =>
        cases hup : updateFirst updates rid now records with
        | none => intro _; simp [Database.update, h, hup]
        | some records' => simp [Database.update, h, hup]
  · intro tn' hne
    cases h : dget tables tn with
    | none => simp [Database.update, h]
    | some records =>
        cases hup : updateFirst updates rid now records with
        | none => simp [Database.update, h, hup]
        | some records' =>
            simp only [Database.update, h, hup]
            exact dget_dset_ne tables tn tn' records' hne
  · cases h : dget tables tn with
    | none => simp [Database.update, h]
    | some records =>
        cases hup : updateFirst updates rid now records with
        | none => simp [Database.update, h, hup]
        | some records' =>
            simp only [Database.update, h, hup, dget_dset_self, Option.getD_some]
            exact updateFirst_length updates rid now records records' hup
  · intro i r hget hne
    cases h : dget tables tn with
    | none => simp only [Database.update, h]; rw [h] at hget; exact hget
    | some records =>
        rw [h] at hget
        simp only [Option.getD_some] at hget
        cases hup : updateFirst updates rid now records with
        | none => simp only [Database.update, h, hup, Option.getD_some]; exact hget
        | some records' =>
            simp only [Database.update, h, hup, dget_dset_self, Option.getD_some]
            exact updateFirst_frame updates rid now records records' i r hup hget hne
  · intro i j hi hj
    cases h : dget tables tn with
    | none => simp [Database.update, h] at hi
    | some records =>
        cases hup : updateFirst updates rid now records with
        | none => simp [Database.update, h, hup] at hi
        | some records' =>
            simp only [Database.update, h, hup, dget_dset_self,
              Option.getD_some] at hi hj
            exact updateFirst_single_diff updates rid now records records' hup i j hi hj
  · cases h : dget db.users uid with
    | none => simp [InMemoryDatabase.update_user, h]
    | some rec => simp [InMemoryDatabase.update_user, h]
  · cases h : dget db.users uid with
    | none => simp [InMemoryDatabase.update_user, h]
    | some rec => simp [InMemoryDatabase.update_user, h]
  · cases h : dget db.users uid with
    | none => simp [InMemoryDatabase.update_user, h]
    | some rec => simp [InMemoryDatabase.update_user, h]
  · intro kk hne
    cases h : dget db.users uid with
    | none => simp [InMemoryDatabase.update_user, h]
    | some rec =>
        simp only [InMemoryDatabase.update_user, h]
        exact dget_dset_ne db.users uid kk _ hne
  · intro hfalse
    cases h : dget db.users uid with
    | none => simp [InMemoryDatabase.update_user, h]
    | some rec => simp [InMemoryDatabase.update_user, h] at hfalse
  · cases h : dget db.products pid with
    | none => simp [InMemoryDatabase.update_product, h]
    | some rec => simp [InMemoryDatabase.update_product, h]
  · cases h : dget db.products pid with
    | none => simp [InMemoryDatabase.update_product, h]
    | some rec => simp [InMemoryDatabase.update_product, h]
  · cases h : dget db.products pid with
    | none => simp [InMemoryDatabase.update_product, h]
    | some rec => simp [InMemoryDatabase.update_product, h]
  · intro kk hne
    cases h : dget db.products pid with
    | none => simp [InMemoryDatabase.update_product, h]
    | some rec =>
        simp only [InMemoryDatabase.update_product, h]
        exact dget_dset_ne db.products pid kk _ hne
  · intro hfalse
    cases h : dget db.products pid with
    | none => simp [InMemoryDatabase.update_product, h]
    | some rec => simp [InMemoryDatabase.update_product, h] at hfalse

/-- C10 witness: updating user 1 in a two-user store leaves user 2's record,
the product dict and both counters unchanged, and a failed `Database.update`
on a missing id leaves the store unchanged. -/
theorem c10_update_frame_witness :
    dget ((InMemoryDatabase.mk
        [(1, [("user_id", Value.vInt 1)]), (2, [("user_id", Value.vInt 2)])]
        [] 2 0).update_user 1 [("username", Value.vStr "b")] "t").1.users 2 =
      some [("user_id", Value.vInt 2)] ∧
    (Database.update [("users", [])] "users" "missing" [] "t").1 =
      [("users", [])] := by
  have h := c10_update_frame [("users", [])] "users" "missing" [] "t"
    InMemoryDatabase.empty 1 0
  have h2 := c10_update_frame [("users", [])] "users" "missing"
    [("username", Value.vStr "b")] "t"
    (InMemoryDatabase.mk
      [(1, [("user_id", Value.vInt 1)]), (2, [("user_id", Value.vInt 2)])]
      [] 2 0) 1 0
  refine ⟨?_, h.1 (by decide)⟩
  rw [h2.2.2.2.2.2.2.2.2.1 2 (by decide)]
  decide

/-- When every scanned user record carries the `"username"` and `"email"`
fields and one of them holds the duplicate value, the scan of the create_user
handler raises the 400 conflict. -/
theorem userConflictScan_eq_conflict (un em : String) (records : List Record)
    (hwf : ∀ r ∈ records,
      (dget r "username").isSome = true ∧ (dget r "email").isSome = true)
    (hconf : ∃ r ∈ records,
      dget r "username" = some (.vStr un) ∨ dget r "email" = some (.vStr em)) :
    userConflictScan un em records = .conflict := by
  induction records with
  | nil => simp at hconf
  | cons u us ih =>
      obtain ⟨hu1, hu2⟩ := hwf u (by simp)
      obtain ⟨vu, hvu⟩ := Option.isSome_iff_exists.mp hu1
      obtain ⟨ve, hve⟩ := Option.isSome_iff_exists.mp hu2
      by_cases h1 : vu = Value.vStr un
      · simp [userConflictScan, hvu, h1]
      · by_cases h2 : ve = Value.vStr em
        · simp [userConflictScan, hvu, h1, hve, h2]
        · have hconf' : ∃ r ∈ us,
              dget r "username" = some (.vStr un) ∨
              dget r "email" = some (.vStr em) := by
            rcases hconf with ⟨r, hr, hc⟩
            rcases List.mem_cons.mp hr with hr | hr
            · subst hr
              rcases hc with hc | hc
              · rw [hvu] at hc; exact absurd (Option.some.inj hc) h1
              · rw [hve] at hc; exact absurd (Option.some.inj hc) h2
            · exact ⟨r, hr, hc⟩
          simp only [userConflictScan, hvu, h1, if_false, hve, h2]
          exact ih (fun r hr => hwf r (List.mem_cons_of_mem _ hr)) hconf'

/-- When every scanned product record carries a `"name"` field and one of them
holds the duplicate name, the scan of the create_product handler raises the
400 conflict. -/
theorem productNameScan_eq_conflict (nm : String) (records : List Record)
    (hwf : ∀ r ∈ records, (dget r "name").isSome = true)
    (hconf : ∃ r ∈ records, dget r "name" = some (.vStr nm)) :
    productNameScan nm records = .conflict := by
  induction records with
  | nil => simp at hconf
  | cons p ps ih =>
      obtain ⟨vn, hvn⟩ := Option.isSome_iff_exists.mp (hwf p (by simp))
      by_cases h1 : vn = Value.vStr nm
      · simp [productNameScan, hvn, h1]
      · have hconf' : ∃ r ∈ ps, dget r "name" = some (.vStr nm) := by
          rcases hconf with ⟨r, hr, hc⟩
          rcases List.mem_cons.mp hr with hr | hr
          · subst hr; rw [hvn] at hc; exact absurd (Option.some.inj hc) h1
          · exact ⟨r, hr, hc⟩
        simp only [productNameScan, hvn, h1, if_false]
        exact ih (fun r hr => hwf r (List.mem_cons_of_mem _ hr)) hconf'

/-- C6: creating a second user whose username or email equals a stored one,
or a second product whose name equals a stored one, raises a 400 conflict
before anything runs after the scan: the handler's outcome carries the
untouched input state, so no collection grows and no record changes. The
well-formedness hypotheses (every stored user record has `"username"` and
`"email"`, every stored product record has `"name"`) hold for every record
the API itself created. -/
theorem c6_duplicate_create_conflict (st : AppState) (user : UserCreate)
    (product : ProductCreate) (nowU nowP : String) :
    ((∀ r ∈ st.imdb.list_users,
        (dget r "username").isSome = true ∧ (dget r "email").isSome = true) →
      (∃ r ∈ st.imdb.list_users,
        dget r "username" = some (.vStr user.username) ∨
        dget r "email" = some (.vStr user.email)) →
      api_create_user st user nowU = .httpErr st 400) ∧
    ((∀ r ∈ st.imdb.list_products, (dget r "name").isSome = true) →
      (∃ r ∈ st.imdb.list_products, dget r "name" = some (.vStr product.name)) →
      api_create_product st product nowP = .httpErr st 400) := by
  constructor
  · intro hwf hconf
    have hscan := userConflictScan_eq_conflict user.username user.email
      st.imdb.list_users hwf hconf
    simp [api_create_user, hscan]
  · intro hwf hconf
    have hscan := productNameScan_eq_conflict product.name
      st.imdb.list_products hwf hconf
    simp [api_create_product, hscan]

/-- C6 witness: on a state holding user `("a", "a@x.com")` and product
`"Book"`, re-posting the same username and the same product name both answer
400 and hand back the state untouched. -/
theorem c6_duplicate_create_conflict_witness :
    api_create_user
        (AppState.mk
          (InMemoryDatabase.mk
            [(1, [("user_id", Value.vInt 1), ("username", Value.vStr "a"),
                  ("email", Value.vStr "a@x.com"), ("is_active", Value.vBool true),
                  ("created_at", Value.vStr "t1")])]
            [(1, [("product_id", Value.vInt 1), ("name", Value.vStr "Book")])] 1 1)
          [] [])
        (UserCreate.mk "a" "other@x.com" true) "t2" =
      .httpErr
        (AppState.mk
          (InMemoryDatabase.mk
            [(1, [("user_id", Value.vInt 1), ("username", Value.vStr "a"),
                  ("email", Value.vStr "a@x.com"), ("is_active", Value.vBool true),
                  ("created_at", Value.vStr "t1")])]
            [(1, [("product_id", Value.vInt 1), ("name", Value.vStr "Book")])] 1 1)
          [] []) 400 :=
  (c6_duplicate_create_conflict
    (AppState.mk
      (InMemoryDatabase.mk
        [(1, [("user_id", Value.vInt 1), ("username", Value.vStr "a"),
              ("email", Value.vStr "a@x.com"), ("is_active", Value.vBool true),
              ("created_at", Value.vStr "t1")])]
        [(1, [("product_id", Value.vInt 1), ("name", Value.vStr "Book")])] 1 1)
      [] [])
    (UserCreate.mk "a" "other@x.com" true)
    (ProductCreate.mk "Book" 10 none 2 true) "t2" "t2").1
    (by decide)
    ⟨[("user_id", Value.vInt 1), ("username", Value.vStr "a"),
      ("email", Value.vStr "a@x.com"), ("is_active", Value.vBool true),
      ("created_at", Value.vStr "t1")], by decide, by decide⟩

/-- Status code and returned `is_available` flag of a create_product outcome
(`none` when the handler did not answer 201). -/
def createdProductAvailability (h : HRes ProductResponse) : Option (Nat × Bool) :=
  match h with
  | .ok _ code resp => some (code, resp.is_available)
  | _ => none

/-- The `"is_available"` value stored for product id 1 in the state a
create_product outcome carries. -/
def storedProductAvailability (h : HRes ProductResponse) : Option Value :=
  match h with
  | .ok st _ _ => (dget st.imdb.products 1).bind (fun r => dget r "is_available")
  | _ => none

/-- C2 (code bug): POST /products with body `name "Widget", price 5, stock 0`
and NO `is_available` field. Pydantic fills the declared default of
`ProductCreate.is_available : bool = True`, so line 375's
`product.is_available is not None` is always true and the `stock > 0`
fallback the spec describes is dead code: the product is stored and returned
with `is_available = True`, although `stock 0 > 0` is false. The update
handler (main.py lines 469-473) does implement the `stock > 0` inference,
showing the create path's fallback was intended. -/
theorem c2_availability_default_bug :
    (ProductCreate.parse
      (ProductCreateRequest.mk "Widget" 5 none (some 0) none)).is_available = true ∧
    createdProductAvailability
        (api_create_product (AppState.mk InMemoryDatabase.empty [] [])
          (ProductCreate.parse
            (ProductCreateRequest.mk "Widget" 5 none (some 0) none)) "t0") =
      some (201, true) ∧
    storedProductAvailability
        (api_create_product (AppState.mk InMemoryDatabase.empty [] [])
          (ProductCreate.parse
            (ProductCreateRequest.mk "Widget" 5 none (some 0) none)) "t0") =
      some (Value.vBool true) ∧
    decide ((0 : Int) > 0) = false := by
  decide

/-- Store state of the spec's §8 scenario, built by the InMemoryDatabase
create operations exactly as the POST /users and POST /products handlers
build it: user 1 (`a`, `a@x.com`) and product 1 (`Book`, price 10, stock 2,
available). -/
def orderScenarioState : AppState :=
  let p1 := InMemoryDatabase.empty.create_user
    [("username", Value.vStr "a"), ("email", Value.vStr "a@x.com"),
     ("is_active", Value.vBool true), ("created_at", Value.vStr "t1")] "t1"
  let p2 := p1.1.create_product
    [("name", Value.vStr "Book"), ("price", Value.vRat 10),
     ("description", Value.vNull), ("stock", Value.vInt 2),
     ("is_available", Value.vBool true), ("created_at", Value.vStr "t2")] "t2"
  AppState.mk p2.1 [] []

/-- C1 (code bug): in a state where user 1 exists and product 1 exists with
`is_available` true and price 10, POST /orders `user_id 1, product_ids [1]`
passes every check and its validation loop computes the total 10, but the
handler then evaluates `in_memory_db.create_order`, an attribute the
`InMemoryDatabase` class does not define, so the call raises `AttributeError`
(HTTP 500) instead of answering 201 with the order. -/
theorem c1_create_order_attribute_error :
    (orderScenarioState.imdb.get_user 1).isSome = true ∧
    ((orderScenarioState.imdb.get_product 1).map
      (fun prod => ((dget prod "is_available").getD (.vBool false)).truthy)) =
        some true ∧
    orderProductsLoop orderScenarioState.imdb [1] 0 = .ok 10 ∧
    "create_order" ∉ inMemoryDatabaseMethods ∧
    api_create_order orderScenarioState (OrderCreate.mk 1 [1]) =
      .crash orderScenarioState "AttributeError: create_order" := by
  have hloop0 : orderProductsLoop orderScenarioState.imdb [1] 0 =
      .ok (0 + 10) := by rfl
  have h10 : (0 : ℚ) + 10 = 10 := by norm_num
  rw [h10] at hloop0
  have huser : orderScenarioState.imdb.get_user 1 =
      some [("user_id", Value.vInt 1), ("username", Value.vStr "a"),
            ("email", Value.vStr "a@x.com"), ("is_active", Value.vBool true),
            ("created_at", Value.vStr "t1")] := by decide
  refine ⟨by decide, by decide, hloop0, by decide, ?_⟩
  simp only [api_create_order, huser, hloop0]

/-- One mutating InMemoryDatabase call, as issued by the main.py handlers. -/
inductive IMOp where
  | createUser (d : Record) (now : String)
  | updateUser (uid : Int) (d : Record) (now : String)
  | deleteUser (uid : Int)
  | createProduct (d : Record) (now : String)
  | updateProduct (pid : Int) (d : Record) (now : String)
  | deleteProduct (pid : Int)
deriving DecidableEq, Repr

/-- Apply one operation to the store, dropping the returned id or flag. -/
def IMOp.apply : IMOp → InMemoryDatabase → InMemoryDatabase
  | .createUser d now, db => (db.create_user d now).1
  | .updateUser uid d now, db => (db.update_user uid d now).1
  | .deleteUser uid, db => (db.delete_user uid).1
  | .createProduct d now, db => (db.create_product d now).1
  | .updateProduct pid d now, db => (db.update_product pid d now).1
  | .deleteProduct pid, db => (db.delete_product pid).1

/-- Run a sequence of operations left to right. -/
def execOps (ops : List IMOp) (db : InMemoryDatabase) : InMemoryDatabase :=
  ops.foldl (fun db op => op.apply db) db

/-- The id discipline of the dict-backed store: every live id is at most the
sequence counter of its collection, and ids are pairwise distinct within each
collection. A fresh store satisfies it, every operation preserves it, and
together with the monotonicity of the counters it makes reuse of a deleted id
impossible. -/
def IMInv (db : InMemoryDatabase) : Prop :=
  (∀ k ∈ db.users.map Prod.fst, k ≤ db.user_id_seq) ∧
  keysNodup db.users ∧
  (∀ k ∈ db.products.map Prod.fst, k ≤ db.product_id_seq) ∧
  keysNodup db.products

/-- Every single operation preserves the id discipline and never decreases
either sequence counter. -/
theorem IMOp.apply_inv (op : IMOp) (db : InMemoryDatabase) (h : IMInv db) :
    IMInv (op.apply db) ∧ db.user_id_seq ≤ (op.apply db).user_id_seq ∧
      db.product_id_seq ≤ (op.apply db).product_id_seq := by
  obtain ⟨hub, hund, hpb, hpnd⟩ := h
  cases op with
  | createUser d now =>
      have hfresh : dget db.users (db.user_id_seq + 1) = none := by
        rw [dget_eq_none_iff_not_mem_keys]
        intro hmem
        have := hub _ hmem
        omega
      have husers : (IMOp.apply (.createUser d now) db).users =
          dset db.users (db.user_id_seq + 1)
            [("user_id", Value.vInt (db.user_id_seq + 1)),
             ("username", (dget d "username").getD .vNull),
             ("email", (dget d "email").getD .vNull),
             ("is_active", (dget d "is_active").getD (.vBool true)),
             ("created_at", (dget d "created_at").getD (.vStr now))] := rfl
      have hseq : (IMOp.apply (.createUser d now) db).user_id_seq =
          db.user_id_seq + 1 := rfl
      have hprod : (IMOp.apply (.createUser d now) db).products =
          db.products := rfl
      have hpseq : (IMOp.apply (.createUser d now) db).product_id_seq =
          db.product_id_seq := rfl
      have hkeys : ((IMOp.apply (.createUser d now) db).users).map Prod.fst =
          db.users.map Prod.fst ++ [db.user_id_seq + 1] := by
        rw [husers, keys_dset_of_none _ _ _ hfresh]
      refine ⟨⟨?_, ?_, ?_, ?_⟩, ?_, ?_⟩
      · intro k hk
        rw [hkeys] at hk
        rw [hseq]
        rcases List.mem_append.mp hk with hk | hk
        · have := hub _ hk; omega
        · simp at hk; omega
      · show (((IMOp.apply (.createUser d now) db).users).map Prod.fst).Nodup
        rw [hkeys, List.nodup_append]
        refine ⟨hund, List.nodup_singleton _, ?_⟩
        intro a ha hb
        simp at hb
        subst hb
        have := hub _ ha
        omega
      · intro k hk
        rw [hprod] at hk
        rw [hpseq]
        exact hpb _ hk
      · show (((IMOp.apply (.createUser d now) db).products).map Prod.fst).Nodup
        rw [hprod]
        exact hpnd
      · rw [hseq]; omega
      · rw [hpseq]
  | updateUser uid d now =>
      cases hget : dget db.users uid with
      | none =>
          have hsame : IMOp.apply (.updateUser uid d now) db = db := by
            show (db.update_user uid d now).1 = db
            simp [InMemoryDatabase.update_user, hget]
          rw [hsame]
          exact ⟨⟨hub, hund, hpb, hpnd⟩, le_refl _, le_refl _⟩
      | some rec =>
          have hsome : (dget db.users uid).isSome := by rw [hget]; rfl
          have husers : (IMOp.apply (.updateUser uid d now) db).users =
              dset db.users uid
                (dset (applyUpdatesExcept "user_id" d rec)
                  "updated_at" (.vStr now)) := by
            show (db.update_user uid d now).1.users = _
            simp [InMemoryDatabase.update_user, hget]
          have hseq : (IMOp.apply (.updateUser uid d now) db).user_id_seq =
              db.user_id_seq := by
            show (db.update_user uid d now).1.user_id_seq = _
            simp [InMemoryDatabase.update_user, hget]
          have hprod : (IMOp.apply (.updateUser uid d now) db).products =
              db.products := by
            show (db.update_user uid d now).1.products = _
            simp [InMemoryDatabase.update_user, hget]
          have hpseq : (IMOp.apply (.updateUser uid d now) db).product_id_seq =
              db.product_id_seq := by
            show (db.update_user uid d now).1.product_id_seq = _
            simp [InMemoryDatabase.update_user, hget]
          have hkeys : ((IMOp.apply (.updateUser uid d now) db).users).map
              Prod.fst = db.users.map Prod.fst := by
            rw [husers, keys_dset_of_isSome _ _ _ hsome]
          refine ⟨⟨?_, ?_, ?_, ?_⟩, ?_, ?_⟩
          · intro k hk
            rw [hkeys] at hk
            rw [hseq]
            exact hub _ hk
          · show (((IMOp.apply (.updateUser uid d now) db).users).map
              Prod.fst).Nodup
            rw [hkeys]
            exact hund
          · intro k hk
            rw [hprod] at hk
            rw [hpseq]
            exact hpb _ hk
          · show (((IMOp.apply (.updateUser uid d now) db).products).map
              Prod.fst).Nodup
            rw [hprod]
            exact hpnd
          · rw [hseq]
          · rw [hpseq]
  | deleteUser uid =>
      have husers : (IMOp.apply (.deleteUser uid) db).users =
          (dpop db.users uid).1 := rfl
      have hseq : (IMOp.apply (.deleteUser uid) db).user_id_seq =
          db.user_id_seq := rfl
      have hprod : (IMOp.apply (.deleteUser uid) db).products =
          db.products := rfl
      have hpseq : (IMOp.apply (.deleteUser uid) db).product_id_seq =
          db.product_id_seq := rfl
      have hsub := dpop_keys_sublist db.users uid
      refine ⟨⟨?_, ?_, ?_, ?_⟩, ?_, ?_⟩
      · intro k hk
        rw [husers] at hk
        rw [hseq]
        exact hub _ (hsub.subset hk)
      · show (((IMOp.apply (.deleteUser uid) db).users).map Prod.fst).Nodup
        rw [husers]
        exact hund.sublist hsub
      · intro k hk
        rw [hprod] at hk
        rw [hpseq]
        exact hpb _ hk
      · show (((IMOp.apply (.deleteUser uid) db).products).map Prod.fst).Nodup
        rw [hprod]
        exact hpnd
      · rw [hseq]
      · rw [hpseq]
  | createProduct d now =>
      have hfresh : dget db.products (db.product_id_seq + 1) = none := by
        rw [dget_eq_none_iff_not_mem_keys]
        intro hmem
        have := hpb _ hmem
        omega
      have hprods : (IMOp.apply (.createProduct d now) db).products =
          dset db.products (db.product_id_seq + 1)
            [("product_id", Value.vInt (db.product_id_seq + 1)),
             ("name", (dget d "name").getD .vNull),
             ("description", (dget d "description").getD .vNull),
             ("price", (dget d "price").getD .vNull),
             ("stock", (dget d "stock").getD (.vInt 0)),
             ("is_available", (dget d "is_available").getD (.vBool true)),
             ("created_at", (dget d "created_at").getD (.vStr now))] := rfl
      have hseq : (IMOp.apply (.createProduct d now) db).user_id_seq =
          db.user_id_seq := rfl
      have husr : (IMOp.apply (.createProduct d now) db).users =
          db.users := rfl
      have hpseq : (IMOp.apply (.createProduct d now) db).product_id_seq =
          db.product_id_seq + 1 := rfl
      have hkeys : ((IMOp.apply (.createProduct d now) db).products).map
          Prod.fst = db.products.map Prod.fst ++ [db.product_id_seq + 1] := by
        rw [hprods, keys_dset_of_none _ _ _ hfresh]
      refine ⟨⟨?_, ?_, ?_, ?_⟩, ?_, ?_⟩
      · intro k hk
        rw [husr] at hk
        rw [hseq]
        exact hub _ hk
      · show (((IMOp.apply (.createProduct d now) db).users).map Prod.fst).Nodup
        rw [husr]
        exact hund
      · intro k hk
        rw [hkeys] at hk
        rw [hpseq]
        rcases List.mem_append.mp hk with hk | hk
        · have := hpb _ hk; omega
        · simp at hk; omega
      · show (((IMOp.apply (.createProduct d now) db).products).map
          Prod.fst).Nodup
        rw [hkeys, List.nodup_append]
        refine ⟨hpnd, List.nodup_singleton _, ?_⟩
        intro a ha hb
        simp at hb
        subst hb
        have := hpb _ ha
        omega
      · rw [hseq]
      · rw [hpseq]; omega
  | updateProduct pid d now =>
      cases hget : dget db.products pid with
      | none =>
          have hsame : IMOp.apply (.updateProduct pid d now) db = db := by
            show (db.update_product pid d now).1 = db
            simp [InMemoryDatabase.update_product, hget]
          rw [hsame]
          exact ⟨⟨hub, hund, hpb, hpnd⟩, le_refl _, le_refl _⟩
      | some rec =>
          have hsome : (dget db.products pid).isSome := by rw [hget]; rfl
          have hprods : (IMOp.apply (.updateProduct pid d now) db).products =
              dset db.products pid
                (dset (applyUpdatesExcept "product_id" d rec)
                  "updated_at" (.vStr now)) := by
            show (db.update_product pid d now).1.products = _
            simp [InMemoryDatabase.update_product, hget]
          have hseq : (IMOp.apply (.updateProduct pid d now) db).user_id_seq =
              db.user_id_seq := by
            show (db.update_product pid d now).1.user_id_seq = _
            simp [InMemoryDatabase.update_product, hget]
          have husr : (IMOp.apply (.updateProduct pid d now) db).users =
              db.users := by
            show (db.update_product pid d now).1.users = _
            simp [InMemoryDatabase.update_product, hget]
          have hpseq : (IMOp.apply (.updateProduct pid d now) db).product_id_seq =
              db.product_id_seq := by
            show (db.update_product pid d now).1.product_id_seq = _
            simp [InMemoryDatabase.update_product, hget]
          have hkeys : ((IMOp.apply (.updateProduct pid d now) db).products).map
              Prod.fst = db.products.map Prod.fst := by
            rw [hprods, keys_dset_of_isSome _ _ _ hsome]
          refine ⟨⟨?_, ?_, ?_, ?_⟩, ?_, ?_⟩
          · intro k hk
            rw [husr] at hk
            rw [hseq]
            exact hub _ hk
          · show (((IMOp.apply (.updateProduct pid d now) db).users).map
              Prod.fst).Nodup
            rw [husr]
            exact hund
          · intro k hk
            rw [hkeys] at hk
            rw [hpseq]
            exact hpb _ hk
          · show (((IMOp.apply (.updateProduct pid d now) db).products).map
              Prod.fst).Nodup
            rw [hkeys]
            exact hpnd
          · rw [hseq]
          · rw [hpseq]
  | deleteProduct pid =>
      have hprods : (IMOp.apply (.deleteProduct pid) db).products =
          (dpop db.products pid).1 := rfl
      have hseq : (IMOp.apply (.deleteProduct pid) db).user_id_seq =
          db.user_id_seq := rfl
      have husr : (IMOp.apply (.deleteProduct pid) db).users =
          db.users := rfl
      have hpseq : (IMOp.apply (.deleteProduct pid) db).product_id_seq =
          db.product_id_seq := rfl
      have hsub := dpop_keys_sublist db.products pid
      refine ⟨⟨?_, ?_, ?_, ?_⟩, ?_, ?_⟩
      · intro k hk
        rw [husr] at hk
        rw [hseq]
        exact hub _ hk
      · show (((IMOp.apply (.deleteProduct pid) db).users).map Prod.fst).Nodup
        rw [husr]
        exact hund
      · intro k hk
        rw [hprods] at hk
        rw [hpseq]
        exact hpb _ (hsub.subset hk)
      · show (((IMOp.apply (.deleteProduct pid) db).products).map Prod.fst).Nodup
        rw [hprods]
        exact hpnd.sublist hsub
      · rw [hseq]
      · rw [hpseq]

/-- A whole operation sequence preserves the id discipline and never
decreases either sequence counter. -/
theorem execOps_inv (ops : List IMOp) : ∀ db : InMemoryDatabase, IMInv db →
    IMInv (execOps ops db) ∧ db.user_id_seq ≤ (execOps ops db).user_id_seq ∧
      db.product_id_seq ≤ (execOps ops db).product_id_seq := by
  induction ops with
  | nil => intro db h; exact ⟨h, le_refl _, le_refl _⟩
  | cons op rest ih =>
      intro db h
      have hstep := IMOp.apply_inv op db h
      have hrest := ih (op.apply db) hstep.1
      exact ⟨hrest.1, le_trans hstep.2.1 hrest.2.1, le_trans hstep.2.2 hrest.2.2⟩

/-- C8: starting from any store satisfying the id discipline — in particular
the fresh store — every sequence of user/product operations preserves it, so
identifiers stay pairwise distinct within each collection; the sequence
counters only ever grow, and the id a later create assigns is fresh: it is
neither a currently live id nor any id that was live (hence bounded by the
counter) at any earlier point — a deleted id is never reissued. For the
uuid-keyed `Database.insert`, a generated id that does not collide with a
live record (the spec's stipulation on uuid4) keeps the stored ids pairwise
distinct. -/
theorem c8_ids_unique_never_reused (ops : List IMOp) (db : InMemoryDatabase)
    (d : Record) (now : String) (x : Int) (tables : Tables) (tn : String)
    (rec : Record) (new_id ts : String) (h : IMInv db) :
    IMInv (execOps ops db) ∧
    db.user_id_seq ≤ (execOps ops db).user_id_seq ∧
    db.product_id_seq ≤ (execOps ops db).product_id_seq ∧
    ((execOps ops db).create_user d now).2 ∉
      (execOps ops db).users.map Prod.fst ∧
    (x ≤ db.user_id_seq → ((execOps ops db).create_user d now).2 ≠ x) ∧
    ((execOps ops db).create_product d now).2 ∉
      (execOps ops db).products.map Prod.fst ∧
    (x ≤ db.product_id_seq → ((execOps ops db).create_product d now).2 ≠ x) ∧
    ((((dget tables tn).getD []).map (fun r => dget r "id")).Nodup →
      some (Value.vStr new_id) ∉
        ((dget tables tn).getD []).map (fun r => dget r "id") →
      (((dget (Database.insert tables tn rec new_id ts).1 tn).getD []).map
        (fun r => dget r "id")).Nodup) := by
  obtain ⟨hinv, husr, hprd⟩ := execOps_inv ops db h
  have hub := hinv.1
  have hpb := hinv.2.2.1
  refine ⟨hinv, husr, hprd, ?_, ?_, ?_, ?_, ?_⟩
  · intro hmem
    have := hub _ hmem
    have hid : ((execOps ops db).create_user d now).2 =
        (execOps ops db).user_id_seq + 1 := rfl
    omega
  · intro hx
    have hid : ((execOps ops db).create_user d now).2 =
        (execOps ops db).user_id_seq + 1 := rfl
    omega
  · intro hmem
    have := hpb _ hmem
    have hid : ((execOps ops db).create_product d now).2 =
        (execOps ops db).product_id_seq + 1 := rfl
    omega
  · intro hx
    have hid : ((execOps ops db).create_product d now).2 =
        (execOps ops db).product_id_seq + 1 := rfl
    omega
  · intro hnd hnotmem
    have htbl := insert_table_eq tables tn rec new_id ts
    rw [htbl]
    have hidrec : dget (dset (dset rec "id" (.vStr new_id)) "created_at"
        (.vStr ts)) "id" = some (Value.vStr new_id) := by
      rw [dget_dset_ne _ _ _ _ (by decide)]
      exact dget_dset_self rec "id" _
    simp only [Option.getD_some, List.map_append, List.map_cons, List.map_nil,
      hidrec]
    rw [List.nodup_append]
    refine ⟨hnd, List.nodup_singleton _, ?_⟩
    intro a ha hb
    simp at hb
    subst hb
    exact hnotmem ha

/-- C8 witness: after creating user 1 on a fresh store and deleting it, the
next create assigns id 2, not the deleted id 1, and 2 is not a live id. -/
theorem c8_ids_unique_never_reused_witness :
    (((execOps [IMOp.deleteUser 1]
        (InMemoryDatabase.empty.create_user [] "t0").1).create_user [] "t1").2 ≠ 1) ∧
    (((execOps [IMOp.deleteUser 1]
        (InMemoryDatabase.empty.create_user [] "t0").1).create_user [] "t1").2 ∉
      (execOps [IMOp.deleteUser 1]
        (InMemoryDatabase.empty.create_user [] "t0").1).users.map Prod.fst) := by
  have h := c8_ids_unique_never_reused [IMOp.deleteUser 1]
    (InMemoryDatabase.empty.create_user [] "t0").1 [] "t1" 1 [] "t" [] "u" "ts"
    ⟨by decide, by decide, by decide, by decide⟩
  exact ⟨h.2.2.2.2.1 (by decide), h.2.2.2.1⟩

end ECom

